import Mathlib

/-!
Verification of the io-ts-fuzzer generator engine.

The concrete value-producing rules (`fuzzNumber`, `fuzzBoolean`, `fuzzString`,
`fuzzUnion`, `fuzzInterface`, the optional-fields rule) are translated from
src/src/core/core.ts.  The registry machinery (createRegistry, register,
getFuzzer, exampleGenerator, the fluent overrides) is not part of src/ - only
its tests are - so those parts are modelled from the spec, as marked in the
doc comments below.

JavaScript values produced by the rules are modelled by `Value`; a runtime
failure (a thrown TypeError, e.g. indexing a union branch array out of range)
is modelled by `Option.none`.  Seeds are mathematical integers, which is exact
for every integral JavaScript number involved here.
-/

/-- A JavaScript value produced by a fuzzer.  Objects keep their property
insertion order, which is the declaration order used by the rules. -/
inductive Value where
  | vNum (n : Int)
  | vBool (b : Bool)
  | vStr (s : String)
  | vArr (elems : List Value)
  | vObj (fields : List (String × Value))

/-- An io-ts schema descriptor (an io-ts codec), one constructor per kind tag
of the baseline catalog from core.ts `BasicType`.  The optional-fields object
kind (io-ts `t.partial`, tag `PartialType`) is called `optObjT` here. -/
inductive Descr where
  | nullT
  | undefinedT
  | voidT
  | unknownT
  | stringT
  | numberT
  | booleanT
  | anyArrayT
  | anyDictT
  | literalT (value : String)
  | keyofT (keys : List String)
  | recursiveT (ref : String)
  | arrayT (elem : Descr)
  | interfaceT (props : List (String × Descr))
  | optObjT (props : List (String × Descr))
  | dictT (dom cod : Descr)
  | unionT (branches : List Descr)
  | tupleT (elems : List Descr)
  | readonlyT (body : Descr)
  | readonlyArrayT (elem : Descr)
  | exactT (body : Descr)
  | refinementT (body : Descr)

/-- The io-ts `_tag` of a descriptor, the key the core rules register under. -/
def tag : Descr → String
  | .nullT => "NullType"
  | .undefinedT => "UndefinedType"
  | .voidT => "VoidType"
  | .unknownT => "UnknownType"
  | .stringT => "StringType"
  | .numberT => "NumberType"
  | .booleanT => "BooleanType"
  | .anyArrayT => "AnyArrayType"
  | .anyDictT => "AnyDictionaryType"
  | .literalT _ => "LiteralType"
  | .keyofT _ => "KeyofType"
  | .recursiveT _ => "RecursiveType"
  | .arrayT _ => "ArrayType"
  | .interfaceT _ => "InterfaceType"
  | .optObjT _ => "PartialType"
  | .dictT _ _ => "DictionaryType"
  | .unionT _ => "UnionType"
  | .tupleT _ => "TupleType"
  | .readonlyT _ => "ReadonlyType"
  | .readonlyArrayT _ => "ReadonlyArrayType"
  | .exactT _ => "ExactType"
  | .refinementT _ => "RefinementType"

/-- The io-ts `name` of a descriptor (schematic: no name-keyed rule is ever
registered in this development, so only its presence matters to lookup). -/
def dName : Descr → Option String
  | .nullT => some "null"
  | .undefinedT => some "undefined"
  | .voidT => some "void"
  | .unknownT => some "unknown"
  | .stringT => some "string"
  | .numberT => some "number"
  | .booleanT => some "boolean"
  | .anyArrayT => some "UnknownArray"
  | .anyDictT => some "UnknownRecord"
  | .literalT v => some v
  | .keyofT _ => some "keyof"
  | .recursiveT ref => some ref
  | .arrayT _ => some "Array"
  | .interfaceT _ => some "interface"
  | .optObjT _ => some "optObj"
  | .dictT _ _ => some "record"
  | .unionT _ => some "union"
  | .tupleT _ => some "tuple"
  | .readonlyT _ => some "Readonly"
  | .readonlyArrayT _ => some "ReadonlyArray"
  | .exactT _ => some "Exact"
  | .refinementT _ => some "refinement"

/-- core.ts `fuzzBoolean`: `n % 2 === 0`.  The JavaScript `%` is the
remainder truncated toward zero, `Int.tmod`. -/
def fuzzBoolean (n : Int) : Bool := n.tmod 2 == 0

/-- core.ts `fuzzNumber`: returns the seed unchanged. -/
def fuzzNumber (n : Int) : Int := n

/-- core.ts `fuzzString`: the template literal which renders the number in
decimal. -/
def fuzzString (n : Int) : String := toString n

/-- The low 32 bits of an integral JavaScript number, as produced by the
ToUint32/ToInt32 conversion that the bitwise operators perform. -/
def jsToUint32 (x : Int) : Nat := (x % 4294967296).toNat

/-- Value of the JavaScript expression `2 ** i` as an integer.  It is exact
for i up to 1023; for larger i the JavaScript value is Infinity, but its
ToUint32 image is 0, the same as that of 2 ^ i, so the bit tests below agree
with JavaScript for every i. -/
def pow2 (i : Nat) : Int := Int.ofNat (2 ^ i)

/-- Truthiness of the JavaScript expression `a & b` for integral a and b: the
operands are converted to 32 bits, combined bitwise, and the result is truthy
exactly when its bit pattern is nonzero. -/
def jsBitAndTruthy (a b : Int) : Bool := (jsToUint32 a &&& jsToUint32 b) != 0

/-- A child generator as seen by a combine function: seed to value, `none`
modelling a thrown error. -/
abbrev ChildGen := Int → Option Value

/-- core.ts `fuzzInterface` loop body: assign `ret[keys[i]] = h[i].encode(n)`
for each child in order, propagating a thrown error. -/
def encodeProps : List (String × ChildGen) → Int → Option (List (String × Value))
  | [], _ => some []
  | (k, f) :: rest, n => do
      let v ← f n
      let tl ← encodeProps rest n
      pure ((k, v) :: tl)

/-- core.ts `fuzzInterface` combine function, with the keys of the descriptor
already extracted (in declaration order, as Object.getOwnPropertyNames
returns them). -/
def interfaceFunc (keys : List String) (n : Int) (h : List ChildGen) : Option Value :=
  (encodeProps (keys.zip h) n).map Value.vObj

/-- core.ts optional-fields loop body (`fuzzPartial` in the source): starting
at child index i, assign `ret[keys[i]] = h[i].encode(n)` exactly when
`n & (2 ** i)` is truthy, skipping the child generator otherwise. -/
def encodeOptProps : Nat → List (String × ChildGen) → Int → Option (List (String × Value))
  | _, [], _ => some []
  | i, (k, f) :: rest, n =>
      if jsBitAndTruthy n (pow2 i) then do
        let v ← f n
        let tl ← encodeOptProps (i + 1) rest n
        pure ((k, v) :: tl)
      else encodeOptProps (i + 1) rest n

/-- core.ts optional-fields combine function (`fuzzPartial` in the source),
with the keys already extracted. -/
def optObjFunc (keys : List String) (n : Int) (h : List ChildGen) : Option Value :=
  (encodeOptProps 0 (keys.zip h) n).map Value.vObj

/-- core.ts `fuzzUnion` combine function: `h[n % h.length].encode(n)`.  When
the JavaScript remainder is negative (or the branch list is empty), the index
is out of range, `h[idx]` is undefined and the call throws: `none`. -/
def fuzzUnionFunc (n : Int) (h : List ChildGen) : Option Value :=
  if hc : 0 ≤ n.tmod (h.length : Int) ∧ (n.tmod (h.length : Int)).toNat < h.length then
    h.get ⟨(n.tmod (h.length : Int)).toNat, hc.2⟩ n
  else none

/-- fuzzer.ts `ConcreteFuzzer` as returned by the generator rules: declared
children plus a combine function over the compiled child generators. -/
structure ConcreteFuzzer where
  children : List Descr
  func : Int → List ChildGen → Option Value

/-- core.ts `fuzzUnion`: children are the branch codecs. -/
def fuzzUnion (branches : List Descr) : ConcreteFuzzer :=
  { children := branches, func := fuzzUnionFunc }

/-- core.ts `fuzzInterface`: children are the property codecs in declaration
order; the combine function closes over the keys. -/
def fuzzInterface (props : List (String × Descr)) : ConcreteFuzzer :=
  { children := props.map (fun p => p.2), func := interfaceFunc (props.map (fun p => p.1)) }

/-- core.ts optional-fields rule (`fuzzPartial` in the source). -/
def fuzzOptObj (props : List (String × Descr)) : ConcreteFuzzer :=
  { children := props.map (fun p => p.2), func := optObjFunc (props.map (fun p => p.1)) }

/-- The inclusion test of the optional-fields rule, `n & (2 ** i)`, succeeds
exactly when i is below 32 and bit i of the low 32 bits of the seed is set. -/
theorem jsBitAndTruthy_pow2 (n : Int) (i : Nat) :
    jsBitAndTruthy n (pow2 i) = (decide (i < 32) && Nat.testBit (jsToUint32 n) i) := by
  by_cases h : i < 32
  · have h2 : jsToUint32 (pow2 i) = 2 ^ i := by
      unfold jsToUint32 pow2
      rw [Int.ofNat_eq_natCast, Int.emod_eq_of_lt (by positivity) ?_]
      · exact Int.toNat_natCast _
      · have hp : (2 : Nat) ^ i < 2 ^ 32 := Nat.pow_lt_pow_right (by norm_num) h
        calc ((2 ^ i : Nat) : Int) < ((2 ^ 32 : Nat) : Int) := by exact_mod_cast hp
          _ = 4294967296 := by norm_num
    rw [jsBitAndTruthy, h2, Nat.and_two_pow]
    rcases Bool.eq_false_or_eq_true (Nat.testBit (jsToUint32 n) i) with ht | ht <;>
      simp [ht, h, Nat.pow_pos]
  · have h2 : jsToUint32 (pow2 i) = 0 := by
      unfold jsToUint32 pow2
      have hd : (4294967296 : Int) ∣ Int.ofNat (2 ^ i) := by
        have hnd : (2 : Nat) ^ 32 ∣ 2 ^ i := pow_dvd_pow 2 (by omega)
        have hni := Int.natCast_dvd_natCast.mpr hnd
        rw [Int.ofNat_eq_natCast]
        calc (4294967296 : Int) = ((2 ^ 32 : Nat) : Int) := by norm_num
          _ ∣ _ := hni
      rw [Int.emod_eq_zero_of_dvd hd]
      rfl
    simp [jsBitAndTruthy, h2, h]

/-- Helper: when every child generator succeeds, the optional-fields loop
starting at index i keeps exactly the children whose bit test succeeds. -/
theorem encodeOptProps_total (ps : List (String × (Int → Value))) (n : Int) (i : Nat) :
    encodeOptProps i (ps.map fun p => (p.1, fun m => some (p.2 m))) n
      = some (((ps.enumFrom i).filter fun q =>
            decide (q.1 < 32) && Nat.testBit (jsToUint32 n) q.1).map fun q => (q.2.1, q.2.2 n)) := by
  induction ps generalizing i with
  | nil => simp [encodeOptProps]
  | cons p rest ih =>
    simp only [List.map_cons, encodeOptProps, List.enumFrom_cons, List.filter_cons]
    rw [jsBitAndTruthy_pow2]
    by_cases hb : (decide (i < 32) && Nat.testBit (jsToUint32 n) i) = true
    · simp [hb, ih]
    · simp only [Bool.not_eq_true] at hb
      simp [hb, ih]

/-- C2 (amended): the optional-fields rule includes property i exactly when
i < 32 and bit i of the seed taken modulo 2 to the 32 is set; included
properties keep declaration order and carry their own child generator applied
to the same seed; all other properties are absent. -/
theorem c2_optional_fields_bits_amended (ps : List (String × (Int → Value))) (n : Int) :
    optObjFunc (ps.map fun p => p.1) n (ps.map fun p => fun m => some (p.2 m))
      = some (Value.vObj ((ps.enum.filter fun q =>
            decide (q.1 < 32) && Nat.testBit (jsToUint32 n) q.1).map fun q => (q.2.1, q.2.2 n))) := by
  unfold optObjFunc
  rw [List.zip_map', encodeOptProps_total]
  rfl

/-- C2 counterexample: a 33-property optional-fields object and the seed
2 to the 32.  Bit 32 of the seed is set, yet the produced object is empty, so
property 32 is not included, contradicting the unrestricted bit rule. -/
theorem c2_counterexample :
    Nat.testBit 4294967296 32 = true ∧
    encodeOptProps 0 ((List.range 33).map fun j => (toString j, fun _ => some (Value.vNum 0)))
        (4294967296 : Int) = some [] := by
  constructor
  · decide
  · rfl

/-- Helper: when every child generator succeeds, the interface loop produces
every property in order with its child value. -/
theorem encodeProps_total (ps : List (String × (Int → Value))) (n : Int) :
    encodeProps (ps.map fun p => (p.1, fun m => some (p.2 m))) n
      = some (ps.map fun p => (p.1, p.2 n)) := by
  induction ps with
  | nil => simp [encodeProps]
  | cons p rest ih => simp [encodeProps, ih]

/-- C4: the required-fields (interface) rule produces every declared
property, in declaration order, each valued by its own child generator
applied to the same seed. -/
theorem c4_interface_all_props (ps : List (String × (Int → Value))) (n : Int) :
    interfaceFunc (ps.map fun p => p.1) n (ps.map fun p => fun m => some (p.2 m))
      = some (Value.vObj (ps.map fun p => (p.1, p.2 n))) := by
  unfold interfaceFunc
  rw [List.zip_map', encodeProps_total]
  rfl

/-- C5: the concrete leaf rules: number returns the seed unchanged, boolean
is true exactly for even seeds, string is the decimal text form of the seed
(minus sign followed by the digits of the absolute value when negative). -/
theorem c5_leaf_semantics (n : Int) :
    fuzzNumber n = n ∧ (fuzzBoolean n = true ↔ Even n) ∧
    fuzzString n = (if n < 0 then "-" ++ toString n.natAbs else toString n.natAbs) := by
  refine ⟨rfl, ?_, ?_⟩
  · unfold fuzzBoolean
    rw [beq_iff_eq, ← Int.dvd_iff_tmod_eq_zero, Int.even_iff, Int.dvd_iff_emod_eq_zero]
  · rcases n with m | m
    · rw [if_neg (by rw [Int.ofNat_eq_natCast]; omega)]
      rfl
    · rw [if_pos (Int.negSucc_lt_zero m)]
      rfl

/-- Helper: for a nonnegative seed the JavaScript remainder used by the union
rule is the mathematical remainder. -/
theorem tmod_toNat_of_nonneg (n : Int) (hn : 0 ≤ n) (b : Nat) :
    n.tmod (b : Int) = ((n.toNat % b : Nat) : Int) := by
  obtain ⟨m, rfl⟩ : ∃ m : Nat, n = (m : Int) := ⟨n.toNat, by omega⟩
  rw [Int.toNat_natCast]
  exact (Int.ofNat_tmod m b).symm

/-- C3 (amended): for a nonnegative seed n, the union rule selects the branch
at index n modulo the branch count, returns that branch value unwrapped, and
consults no other branch: any branch list of the same length agreeing at the
selected index produces the same value. -/
theorem c3_union_branch_amended (h : List ChildGen) (n : Int) (f : ChildGen) (hn : 0 ≤ n)
    (hf : h[n.toNat % h.length]? = some f) :
    fuzzUnionFunc n h = f n ∧
    ∀ k : List ChildGen, k.length = h.length → k[n.toNat % h.length]? = some f →
      fuzzUnionFunc n k = f n := by
  have main : ∀ k : List ChildGen, k.length = h.length → k[n.toNat % h.length]? = some f →
      fuzzUnionFunc n k = f n := by
    intro k hkl hkf
    have hlt : n.toNat % h.length < k.length := by
      rcases List.getElem?_eq_some.mp hkf with ⟨hl, _⟩
      exact hl
    have htm : n.tmod (k.length : Int) = ((n.toNat % h.length : Nat) : Int) := by
      rw [tmod_toNat_of_nonneg n hn k.length, hkl]
    unfold fuzzUnionFunc
    rw [dif_pos ?side]
    case side =>
      constructor
      · rw [htm]; exact Int.natCast_nonneg _
      · rw [htm, Int.toNat_natCast]; exact hlt
    · have hge : k[(n.toNat % h.length)] = f := by
        rcases List.getElem?_eq_some.mp hkf with ⟨hl, hv⟩
        exact hv
      simp only [List.get_eq_getElem, htm, Int.toNat_natCast]
      rw [hge]
  exact ⟨main h rfl hf, main⟩

/-- C3 witness: the spec example: branches number then string, seed 4, branch
index 4 mod 2 = 0, result is the number value 4. -/
theorem c3_union_branch_amended_witness :
    fuzzUnionFunc 4 [fun m => some (Value.vNum m), fun m => some (Value.vStr (toString m))]
      = some (Value.vNum 4) :=
  (c3_union_branch_amended
    [fun m => some (Value.vNum m), fun m => some (Value.vStr (toString m))]
    4 (fun m => some (Value.vNum m)) (by decide) rfl).1

/-- C3 counterexample: seed -1 on the two-branch union of the spec example.
The claim as stated (every seed, branch index seed modulo branch count, a
branch value returned) predicts the string branch value; the code computes
the JavaScript remainder -1, indexes out of range and fails. -/
theorem c3_counterexample :
    fuzzUnionFunc (-1) [fun m => some (Value.vNum m), fun m => some (Value.vStr (toString m))]
      = none := rfl

/-- C10: for a union of at least two branches and a negative seed that is not
an exact multiple of the branch count, the JavaScript remainder is negative,
the branch array is indexed out of range, and encoding fails. -/
theorem c10_union_negative_seed (h : List ChildGen) (n : Int) (hl : 2 ≤ h.length)
    (hn : n < 0) (hd : ¬ ((h.length : Int) ∣ n)) : fuzzUnionFunc n h = none := by
  have hneg : n.tmod (h.length : Int) < 0 := by
    rcases n with m | m
    · exact absurd hn (by rw [Int.ofNat_eq_natCast]; omega)
    · have hr : Int.tmod (Int.negSucc m) (h.length : Int) = -Int.ofNat ((m + 1) % h.length) :=
        rfl
      rw [hr, Int.ofNat_eq_natCast]
      have hne : (m + 1) % h.length ≠ 0 := by
        intro h0
        apply hd
        have hdn : h.length ∣ (m + 1) := Nat.dvd_of_mod_eq_zero h0
        have hdi := Int.natCast_dvd_natCast.mpr hdn
        rw [Int.negSucc_eq]
        exact (Int.dvd_neg).mpr (by exact_mod_cast hdi)
      omega
  unfold fuzzUnionFunc
  rw [dif_neg]
  intro hcon
  exact absurd hcon.1 (by omega)

/-- C10 witness: two branches, seed -3: the remainder is -1 and encoding
fails. -/
theorem c10_union_negative_seed_witness :
    fuzzUnionFunc (-3) [fun _ => some (Value.vNum 0), fun _ => some (Value.vNum 1)] = none :=
  c10_union_negative_seed
    [fun _ => some (Value.vNum 0), fun _ => some (Value.vNum 1)]
    (-3) (by decide) (by decide) (by decide)

/-- How a fuzzer definition is keyed: by kind tag or by codec name. -/
inductive IdType where
  | byTag
  | byName
deriving DecidableEq

/-- The implementation of a registered rule.  A concrete rule is a pure
function of the seed.  The generator rules of the source are closures over a
descriptor; they are represented here by one symbol per source generator,
interpreted by the composition function `encodeF` below, so that Lean can see
the recursion into children. -/
inductive FuzzerImpl where
  | fuzzer (func : Int → Option Value)
  | genUnion
  | genInterface
  | genOptObj
  | genArray (maxLen : Option Nat)
  | genReadonlyArray (maxLen : Option Nat)

/-- fuzzer.ts `Fuzzer`: a registered definition. -/
structure Fuzzer where
  id : String
  idType : IdType
  impl : FuzzerImpl

/-- Modelled from the spec: the Registry owns a key-to-rule mapping with a
last-write-wins replacement invariant.  It is modelled as the list of all
registrations in order; lookup takes the latest matching entry.
registry.ts is not under src/. -/
abbrev Registry := List Fuzzer

/-- Modelled from the spec: `createRegistry()` returns an empty registry. -/
def createRegistry : Registry := []

/-- Modelled from the spec: `register(...defs)` stores each definition under
its key, later definitions overwriting earlier ones; mutation of the shared
registry is modelled by explicit state passing. -/
def register (r : Registry) (fs : List Fuzzer) : Registry := r ++ fs

/-- The latest registered definition satisfying a criterion. -/
def findLast (p : Fuzzer → Bool) (r : Registry) : Option Fuzzer :=
  r.foldl (fun acc f => if p f then some f else acc) none

/-- Whether a definition is name-keyed for this descriptor. -/
def keyedByName (d : Descr) (f : Fuzzer) : Bool :=
  decide (f.idType = IdType.byName) && decide (dName d = some f.id)

/-- Whether a definition is tag-keyed for this descriptor. -/
def keyedByTag (d : Descr) (f : Fuzzer) : Bool :=
  decide (f.idType = IdType.byTag) && decide (f.id = tag d)

/-- Modelled from the spec: `getFuzzer(descriptor)` returns the name-keyed
definition for the descriptor name when one exists, otherwise the tag-keyed
definition for its kind tag, otherwise none; lookup never inspects
children. -/
def getFuzzer (r : Registry) (d : Descr) : Option Fuzzer :=
  match findLast (keyedByName d) r with
  | some f => some f
  | none => findLast (keyedByTag d) r

/-- core.ts `concrete`: wrap a pure function as a tag-keyed fuzzer. -/
def concrete (func : Int → Option Value) (t : String) : Fuzzer :=
  { id := t, idType := IdType.byTag, impl := FuzzerImpl.fuzzer func }

/-- core.ts `gen`: wrap a generator rule as a tag-keyed fuzzer. -/
def gen (g : FuzzerImpl) (t : String) : Fuzzer :=
  { id := t, idType := IdType.byTag, impl := g }

/-- core.ts `coreFuzzers`: the six default rules of the source, in source
order.  The concrete leaves wrap the source functions into JavaScript
values. -/
def coreFuzzers : List Fuzzer :=
  [ concrete (fun n => some (Value.vNum (fuzzNumber n))) "NumberType",
    concrete (fun n => some (Value.vBool (fuzzBoolean n))) "BooleanType",
    concrete (fun n => some (Value.vStr (fuzzString n))) "StringType",
    gen FuzzerImpl.genUnion "UnionType",
    gen FuzzerImpl.genInterface "InterfaceType",
    gen FuzzerImpl.genOptObj "PartialType" ]

/-- Modelled from the spec: `createCoreRegistry()` is an empty registry with
the default rules registered; the default rules are `coreFuzzers` from
src/src/core/core.ts. -/
def createCoreRegistry : Registry := register createRegistry coreFuzzers

/-- src `fuzzContext`: per-call state bounding recursion into
self-referential children.  None of the six source rules is
self-referential, so the compiled generators below never consult it. -/
structure FuzzContext where
  maxRecursionHint : Nat

/-- Constructor mirroring the library surface `fuzzContext({...})`. -/
def fuzzContext (maxRecursionHint : Nat) : FuzzContext :=
  { maxRecursionHint := maxRecursionHint }

/-- Modelled from the spec: the length of a generated array, bounded by the
configured maximum per array category; the default is effectively unbounded,
derived from the seed. -/
def arrayLen (maxLen : Option Nat) (n : Int) : Nat :=
  match maxLen with
  | none => n.toNat
  | some m => min n.toNat m

/-- Modelled from the spec: the recursive composition performed by
`exampleGenerator`: resolve the rule for the descriptor and combine the
children, each child resolved through the same registry.  The fuel argument
bounds the structural recursion so that Lean accepts it; any fuel at least
the height of the (finite) descriptor tree gives the behavior of the code,
which recurses structurally without a bound.  Array elements use derived
per-index seeds, per the spec. -/
def encodeF : Nat → Registry → Descr → Int → Option Value
  | 0, _, _, _ => none
  | fuel + 1, r, d, n =>
    match getFuzzer r d with
    | none => none
    | some fz =>
      match fz.impl, d with
      | FuzzerImpl.fuzzer f, _ => f n
      | FuzzerImpl.genUnion, Descr.unionT bs =>
          fuzzUnionFunc n (bs.map fun b => fun m => encodeF fuel r b m)
      | FuzzerImpl.genInterface, Descr.interfaceT ps =>
          interfaceFunc (ps.map fun p => p.1) n (ps.map fun p => fun m => encodeF fuel r p.2 m)
      | FuzzerImpl.genOptObj, Descr.optObjT ps =>
          optObjFunc (ps.map fun p => p.1) n (ps.map fun p => fun m => encodeF fuel r p.2 m)
      | FuzzerImpl.genArray ml, Descr.arrayT e =>
          ((List.range (arrayLen ml n)).mapM fun (i : Nat) =>
            encodeF fuel r e (n + (i : Int))).map Value.vArr
      | FuzzerImpl.genReadonlyArray ml, Descr.readonlyArrayT e =>
          ((List.range (arrayLen ml n)).mapM fun (i : Nat) =>
            encodeF fuel r e (n + (i : Int))).map Value.vArr
      | _, _ => none

/-- Modelled from the spec: the fail-fast compile check of
`exampleGenerator`: every node of the descriptor tree, root or nested, must
resolve to a definition; a concrete rule has no children to check.  A false
result is the UnsupportedSchema condition, raised before any encode call. -/
def compileOk : Nat → Registry → Descr → Bool
  | 0, _, _ => false
  | fuel + 1, r, d =>
    match getFuzzer r d with
    | none => false
    | some fz =>
      match fz.impl, d with
      | FuzzerImpl.fuzzer _, _ => true
      | FuzzerImpl.genUnion, Descr.unionT bs => bs.all (compileOk fuel r)
      | FuzzerImpl.genInterface, Descr.interfaceT ps => ps.all fun p => compileOk fuel r p.2
      | FuzzerImpl.genOptObj, Descr.optObjT ps => ps.all fun p => compileOk fuel r p.2
      | FuzzerImpl.genArray _, Descr.arrayT e => compileOk fuel r e
      | FuzzerImpl.genReadonlyArray _, Descr.readonlyArrayT e => compileOk fuel r e
      | _, _ => false

/-- Modelled from the spec: `exampleGenerator` compiles the descriptor
against the registry, failing fast with UnsupportedSchema (`none`) when any
node lacks a definition, and otherwise returns the composed
`encode(seed, context)`.  The context is threaded but never consulted, since
no self-referential rule exists in this snapshot of the catalog. -/
def exampleGenerator (fuel : Nat) (r : Registry) (d : Descr) :
    Option (Int → FuzzContext → Option Value) :=
  if compileOk fuel r d then some (fun n _ => encodeF fuel r d n) else none

/-- C1 counterexample: the null-marker kind is in the baseline catalog listed
by the claim, but `createCoreRegistry()` (loaded with the six rules of
`coreFuzzers` from the source) has no rule for it, and `exampleGenerator`
fails with UnsupportedSchema instead of succeeding. -/
theorem c1_counterexample :
    getFuzzer createCoreRegistry Descr.nullT = none ∧
    exampleGenerator 3 createCoreRegistry Descr.nullT = none := ⟨rfl, rfl⟩

/-- C1 (amended): the registry returned by `createCoreRegistry()` holds
default rules for exactly the six kinds of `coreFuzzers` (number, boolean,
string, tagged union, required-fields object, optional-fields object):
lookup succeeds precisely on those kind tags, `exampleGenerator` succeeds on
representative descriptors of the six kinds, and it fails with
UnsupportedSchema on every other kind of the baseline catalog. -/
theorem c1_core_catalog_amended :
    (∀ d : Descr, (getFuzzer createCoreRegistry d).isSome =
      (["NumberType", "BooleanType", "StringType", "UnionType", "InterfaceType",
        "PartialType"].contains (tag d))) ∧
    (exampleGenerator 3 createCoreRegistry Descr.numberT).isSome = true ∧
    (exampleGenerator 3 createCoreRegistry Descr.booleanT).isSome = true ∧
    (exampleGenerator 3 createCoreRegistry Descr.stringT).isSome = true ∧
    (exampleGenerator 3 createCoreRegistry (Descr.unionT [Descr.numberT, Descr.stringT])).isSome
      = true ∧
    (exampleGenerator 3 createCoreRegistry
        (Descr.interfaceT [("a", Descr.numberT), ("j", Descr.booleanT)])).isSome = true ∧
    (exampleGenerator 3 createCoreRegistry (Descr.optObjT [("a", Descr.numberT)])).isSome
      = true ∧
    exampleGenerator 3 createCoreRegistry Descr.undefinedT = none ∧
    exampleGenerator 3 createCoreRegistry Descr.voidT = none ∧
    exampleGenerator 3 createCoreRegistry Descr.unknownT = none ∧
    exampleGenerator 3 createCoreRegistry (Descr.literalT "x") = none ∧
    exampleGenerator 3 createCoreRegistry (Descr.keyofT ["k"]) = none ∧
    exampleGenerator 3 createCoreRegistry Descr.anyArrayT = none ∧
    exampleGenerator 3 createCoreRegistry Descr.anyDictT = none ∧
    exampleGenerator 3 createCoreRegistry (Descr.arrayT Descr.numberT) = none ∧
    exampleGenerator 3 createCoreRegistry (Descr.readonlyArrayT Descr.numberT) = none ∧
    exampleGenerator 3 createCoreRegistry (Descr.tupleT [Descr.numberT]) = none ∧
    exampleGenerator 3 createCoreRegistry (Descr.dictT Descr.stringT Descr.numberT) = none ∧
    exampleGenerator 3 createCoreRegistry (Descr.readonlyT Descr.numberT) = none ∧
    exampleGenerator 3 createCoreRegistry (Descr.exactT Descr.numberT) = none ∧
    exampleGenerator 3 createCoreRegistry (Descr.refinementT Descr.numberT) = none ∧
    exampleGenerator 3 createCoreRegistry (Descr.recursiveT "R") = none := by
  refine ⟨fun d => ?_, rfl, rfl, rfl, rfl, rfl, rfl, rfl, rfl, rfl, rfl, rfl, rfl, rfl,
    rfl, rfl, rfl, rfl, rfl, rfl, rfl, rfl⟩
  cases d <;> rfl

/-- Helper: appending one definition makes it the lookup result when it
matches, and changes nothing otherwise. -/
theorem findLast_append_singleton (p : Fuzzer → Bool) (r : Registry) (x : Fuzzer) :
    findLast p (r ++ [x]) = if p x then some x else findLast p r := by
  unfold findLast
  rw [List.foldl_append]
  rfl

/-- Helper: a definition found by `findLast` satisfies the criterion. -/
theorem findLast_pred (p : Fuzzer → Bool) :
    ∀ (r : Registry) (acc : Option Fuzzer),
      (∀ g, acc = some g → p g = true) →
      ∀ f, r.foldl (fun a x => if p x then some x else a) acc = some f → p f = true := by
  intro r
  induction r with
  | nil =>
    intro acc hacc f hf
    exact hacc f hf
  | cons x rest ih =>
    intro acc hacc f hf
    simp only [List.foldl_cons] at hf
    by_cases hx : p x = true
    · refine ih _ (fun g hg => ?_) f hf
      rw [if_pos hx] at hg
      cases hg
      exact hx
    · refine ih _ (fun g hg => ?_) f hf
      rw [if_neg hx] at hg
      exact hacc g hg

/-- C6: registering B after A under the same id makes B authoritative for
lookup, and the registry state after the two sequential register calls is
identical to the state after one batched call; mutation is modelled by state
passing, so chaining returns the updated state itself. -/
theorem c6_register_last_write_wins (r : Registry) (A B : Fuzzer) (d : Descr)
    (hid : A.id = B.id) (hty : A.idType = B.idType)
    (hA : getFuzzer (register r [A]) d = some A) :
    register (register r [A]) [B] = register r [A, B] ∧
    getFuzzer (register r [A, B]) d = some B := by
  have hseq : register (register r [A]) [B] = register r [A, B] := by
    simp [register]
  refine ⟨hseq, ?_⟩
  have hAB : register r [A, B] = (register r [A]) ++ [B] := by
    simp [register]
  unfold getFuzzer at hA ⊢
  cases hname : findLast (keyedByName d) (register r [A]) with
  | some g =>
    rw [hname] at hA
    have hgA : g = A := by
      injection hA
    rw [hgA] at hname
    have hpA : keyedByName d A = true := by
      refine findLast_pred (keyedByName d) (register r [A]) none (fun x hx => ?_) A hname
      cases hx
    have hpB : keyedByName d B = true := by
      simp only [keyedByName, Bool.and_eq_true, decide_eq_true_eq] at hpA ⊢
      exact ⟨hty ▸ hpA.1, hid ▸ hpA.2⟩
    have hn2 : findLast (keyedByName d) (register r [A, B]) = some B := by
      rw [hAB, findLast_append_singleton, if_pos hpB]
    rw [hn2]
  | none =>
    rw [hname] at hA
    have hpA : keyedByTag d A = true := by
      refine findLast_pred (keyedByTag d) (register r [A]) none (fun x hx => ?_) A hA
      cases hx
    have hpB : keyedByTag d B = true := by
      simp only [keyedByTag, Bool.and_eq_true, decide_eq_true_eq] at hpA ⊢
      exact ⟨hty ▸ hpA.1, hid ▸ hpA.2⟩
    have hnB : keyedByName d B = false := by
      simp only [keyedByTag, Bool.and_eq_true, decide_eq_true_eq] at hpA
      simp only [keyedByName, Bool.and_eq_false_iff, decide_eq_false_iff_not]
      left
      rw [← hty, hpA.1]
      intro hcon
      cases hcon
    have hn2 : findLast (keyedByName d) (register r [A, B]) = none := by
      rw [hAB, findLast_append_singleton, if_neg (by rw [hnB]; intro hcon; cases hcon), hname]
    have ht2 : findLast (keyedByTag d) (register r [A, B]) = some B := by
      rw [hAB, findLast_append_singleton, if_pos hpB]
    rw [hn2]
    exact ht2

/-- C6 witness: two string rules registered in one batched call on an empty
registry; the second wins, exactly as after two sequential calls. -/
theorem c6_register_last_write_wins_witness :
    getFuzzer
      (register createRegistry
        [concrete (fun n => some (Value.vStr ("Hello " ++ toString n))) "StringType",
         concrete (fun n => some (Value.vStr ("Bye " ++ toString n))) "StringType"])
      Descr.stringT
      = some (concrete (fun n => some (Value.vStr ("Bye " ++ toString n))) "StringType") :=
  (c6_register_last_write_wins createRegistry
    (concrete (fun n => some (Value.vStr ("Hello " ++ toString n))) "StringType")
    (concrete (fun n => some (Value.vStr ("Bye " ++ toString n))) "StringType")
    Descr.stringT rfl rfl rfl).2

/-- Modelled from the spec: the typed-array default rule, keyed by the
ArrayType tag; the override re-registers it with a maximum length.  The
array rules are absent from src/. -/
def arrayFuzzer (maxLen : Option Nat) : Fuzzer :=
  { id := "ArrayType", idType := IdType.byTag, impl := FuzzerImpl.genArray maxLen }

/-- Modelled from the spec: the readonly-array default rule, keyed by the
ReadonlyArrayType tag. -/
def readonlyArrayFuzzer (maxLen : Option Nat) : Fuzzer :=
  { id := "ReadonlyArrayType", idType := IdType.byTag, impl := FuzzerImpl.genReadonlyArray maxLen }

/-- Modelled from the spec: the core registry together with the two array
default rules of the full baseline catalog (the spec lists them among the
defaults; they are not in the coreFuzzers of src/). -/
def coreWithArrayDefaults : Registry :=
  register createCoreRegistry [arrayFuzzer none, readonlyArrayFuzzer none]

/-- Modelled from the spec: `fluent(r).withArrayFuzzer(maxLen)` registers a
replacement typed-array rule into the wrapped registry and returns it;
the shared mutation is modelled by state passing. -/
def withArrayFuzzer (r : Registry) (maxLen : Nat) : Registry :=
  register r [arrayFuzzer (some maxLen)]

/-- Helper: mapping an everywhere-successful function through the option
monad succeeds with the mapped list. -/
theorem list_mapM_some {α β : Type} (g : α → β) :
    ∀ l : List α, l.mapM (fun a => some (g a)) = some (l.map g) := by
  intro l
  induction l with
  | nil => rfl
  | cons x rest ih =>
    rw [List.mapM_cons, ih]
    rfl

/-- C7: with `withArrayFuzzer 3` applied to the core registry (holding its
spec array defaults), every seed encodes a typed array of length at most 3,
while the readonly-array rule is untouched: seed 4 (one of 0..99) already
encodes a readonly array of length 4. -/
theorem c7_with_array_fuzzer :
    (∀ (fuel : Nat) (n : Int), ∃ l : List Value,
        encodeF (fuel + 2) (withArrayFuzzer coreWithArrayDefaults 3)
            (Descr.arrayT Descr.numberT) n
          = some (Value.vArr l) ∧ l.length ≤ 3) ∧
    (∃ l : List Value,
        encodeF 2 (withArrayFuzzer coreWithArrayDefaults 3)
            (Descr.readonlyArrayT Descr.numberT) 4
          = some (Value.vArr l) ∧ 3 < l.length) := by
  constructor
  · intro fuel n
    refine ⟨(List.range (arrayLen (some 3) n)).map fun (i : Nat) => Value.vNum (n + (i : Int)),
      ?_, ?_⟩
    · have hnum : ∀ m : Int, encodeF (fuel + 1) (withArrayFuzzer coreWithArrayDefaults 3)
          Descr.numberT m = some (Value.vNum m) := fun m => rfl
      conv_lhs => rw [encodeF]
      show ((List.range (arrayLen (some 3) n)).mapM fun (i : Nat) =>
          encodeF (fuel + 1) (withArrayFuzzer coreWithArrayDefaults 3) Descr.numberT
            (n + (i : Int))).map Value.vArr = _
      simp only [hnum]
      rw [list_mapM_some]
      rfl
    · rw [List.length_map, List.length_range]
      exact min_le_right _ _
  · exact ⟨[Value.vNum 4, Value.vNum 5, Value.vNum 6, Value.vNum 7], rfl, by decide⟩

/-- C8: `encode` is deterministic and pure: any two results of the same
compiled generator at the same seed and context are equal, and both are the
fixed function of the registry state at compose time. -/
theorem c8_encode_deterministic (fuel : Nat) (r : Registry) (d : Descr)
    (g : Int → FuzzContext → Option Value) (hg : exampleGenerator fuel r d = some g)
    (s : Int) (c : FuzzContext) (v1 v2 : Option Value)
    (h1 : g s c = v1) (h2 : g s c = v2) :
    v1 = v2 ∧ v2 = encodeF fuel r d s := by
  have hgf : g = fun n _ => encodeF fuel r d n := by
    unfold exampleGenerator at hg
    by_cases hco : compileOk fuel r d = true
    · rw [if_pos hco] at hg
      injection hg with h
      exact h.symm
    · rw [if_neg hco] at hg
      cases hg
  constructor
  · rw [← h1, ← h2]
  · rw [← h2, hgf]

/-- C8 witness: the compiled number generator of the core registry at seed 5
and recursion hint 10. -/
theorem c8_encode_deterministic_witness :
    encodeF 1 createCoreRegistry Descr.numberT 5 = some (Value.vNum 5) :=
  (c8_encode_deterministic 1 createCoreRegistry Descr.numberT
    (fun n _ => encodeF 1 createCoreRegistry Descr.numberT n) rfl
    5 (fuzzContext 10) (encodeF 1 createCoreRegistry Descr.numberT 5)
    (some (Value.vNum 5)) rfl rfl).1

/-- Helper: once the running index reaches 32, the optional-fields loop
includes nothing more and consults no further child generator. -/
theorem encodeOptProps_high (n : Int) :
    ∀ (ps : List (String × ChildGen)) (i : Nat), 32 ≤ i →
      encodeOptProps i ps n = some [] := by
  intro ps
  induction ps with
  | nil =>
    intro i _
    rfl
  | cons p rest ih =>
    intro i hi
    obtain ⟨k, f⟩ := p
    simp only [encodeOptProps]
    rw [jsBitAndTruthy_pow2]
    have hd : decide (i < 32) = false := by
      simp only [decide_eq_false_iff_not]
      omega
    simp [hd, ih (i + 1) (by omega)]

/-- Helper: the optional-fields loop starting at index i only ever reads the
first 32 - i children. -/
theorem encodeOptProps_take32 (n : Int) :
    ∀ (ps : List (String × ChildGen)) (i : Nat),
      encodeOptProps i ps n = encodeOptProps i (ps.take (32 - i)) n := by
  intro ps
  induction ps with
  | nil =>
    intro i
    rw [List.take_nil]
  | cons p rest ih =>
    intro i
    by_cases hi : 32 ≤ i
    · have h0 : 32 - i = 0 := by omega
      rw [h0, List.take_zero, encodeOptProps_high n _ i hi]
      rfl
    · have h1 : 32 - i = (32 - (i + 1)) + 1 := by omega
      rw [h1, List.take_succ_cons]
      obtain ⟨k, f⟩ := p
      simp only [encodeOptProps]
      rw [ih (i + 1)]

/-- C9: the inclusion test is a 32-bit bitwise AND with 2 to the i, which is
zero for every i of 32 or more, so the optional-fields rule never includes a
property at position 32 or beyond: the output equals the output for the
first 32 declared properties alone, for every seed. -/
theorem c9_optional_fields_32bit_truncation (n : Int) :
    (∀ i : Nat, 32 ≤ i → jsBitAndTruthy n (pow2 i) = false) ∧
    ∀ ps : List (String × ChildGen), encodeOptProps 0 ps n = encodeOptProps 0 (ps.take 32) n := by
  constructor
  · intro i hi
    rw [jsBitAndTruthy_pow2]
    have hd : decide (i < 32) = false := by
      simp only [decide_eq_false_iff_not]
      omega
    rw [hd, Bool.false_and]
  · intro ps
    have h := encodeOptProps_take32 n ps 0
    simpa using h

/-- C9 witness: the bit-32 mask is zero at seed 5. -/
theorem c9_optional_fields_32bit_truncation_witness :
    jsBitAndTruthy 5 (pow2 32) = false :=
  (c9_optional_fields_32bit_truncation 5).1 32 (by decide)
